import Mathlib

/- Shallow embedding of the AI-radio scheduling core:
   src/backend/models.py      (table rows)
   src/backend/scheduler.py   (PlaylistManager, SchedulerService)
   src/backend/celery_tasks.py (generate_dj_intro task)
   src/backend/ai_generator.py (AIHost, TTSHandler)

   The relational store is a record of row lists; commits are modelled by
   returning the updated record.  Randomness (random.sample, random.shuffle,
   random.choice) and the two network collaborators (AI Brain text/TTS
   endpoints) are passed in as explicit oracle parameters; theorems that need
   the library contracts of random.sample / random.shuffle take them as
   hypotheses (sample draws without replacement, shuffle permutes). -/

/-- A row of the `Upload` table (models.py).  `username` stands for the joined
`upload.user.username`; the `user_id` foreign key is non-nullable, so the join
is total. -/
structure Upload where
  id : Nat
  title : String
  username : String
  description : String
  category : String
  media_type : String
  status : String
  filename : Option String
  duration : Option Int
deriving DecidableEq, Repr

/-- A row of the `Segment` table (models.py). -/
structure Segment where
  id : Nat
  upload_id : Nat
  dj_intro_text : String
  dj_intro_audio : Option String
  position_in_playlist : Option Nat
deriving DecidableEq, Repr

/-- A row of the `Playlist` table (models.py); `created_at` is a UTC timestamp
in seconds. -/
structure Playlist where
  id : Nat
  name : String
  description : String
  is_active : Bool
  created_at : Int
deriving DecidableEq, Repr, Inhabited

/-- A row of the `PlaylistEntry` table (models.py). -/
structure PlaylistEntry where
  playlist_id : Nat
  upload_id : Nat
  position : Nat
deriving DecidableEq, Repr

/-- The relational state touched by the scheduling core. -/
structure Db where
  uploads : List Upload
  playlists : List Playlist
  entries : List PlaylistEntry
  segments : List Segment
  next_playlist_id : Nat
  next_segment_id : Nat
deriving DecidableEq, Repr, Inhabited

/-- `Upload.query.filter_by(status='approved', media_type='audio').all()`. -/
def approved_audio (db : Db) : List Upload :=
  db.uploads.filter (fun u => u.status == "approved" && u.media_type == "audio")

/-- `Upload.query.filter_by(status='approved', media_type='video').all()`. -/
def approved_video (db : Db) : List Upload :=
  db.uploads.filter (fun u => u.status == "approved" && u.media_type == "video")

/-- The `playlist.entries` relationship: the `PlaylistEntry` rows of one
playlist. -/
def entriesOf (pid : Nat) (db : Db) : List PlaylistEntry :=
  db.entries.filter (fun e => e.playlist_id == pid)

/-- scheduler.py line 53: `total_slots = 50`. -/
def total_slots : Nat := 50

/-- scheduler.py line 54: `audio_slots = int(total_slots * 0.7)`; the float
product `50 * 0.7` is exactly `35.0` in binary64, so the truncation is 35. -/
def audio_slots : Nat := total_slots * 7 / 10

/-- scheduler.py line 55: `video_slots = total_slots - audio_slots`. -/
def video_slots : Nat := total_slots - audio_slots

/-- `PlaylistManager.create_daily_playlist` (scheduler.py lines 21-88).
`dateShort`/`dateLong` are the two strftime renderings of `date`; `sample`
stands for `random.sample`, `shuffle` for `random.shuffle` (in-place in
Python, returned here).  The "no approved content" branch prints and returns
`None`; success commits the playlist row and its entries. -/
def create_daily_playlist (db : Db) (now : Int) (dateShort dateLong : String)
    (sample : List Upload → Nat → List Upload)
    (shuffle : List Upload → List Upload) : Option (Playlist × Db) :=
  let audio_content := approved_audio db
  let video_content := approved_video db
  if audio_content.isEmpty && video_content.isEmpty then
    none
  else
    let playlist : Playlist :=
      { id := db.next_playlist_id
        name := "Daily Mix - " ++ dateShort
        description := "AI-curated daily playlist for " ++ dateLong
        is_active := false
        created_at := now }
    let audio_picks :=
      if audio_content.isEmpty then []
      else sample audio_content (min audio_slots audio_content.length)
    let video_picks :=
      if video_content.isEmpty then []
      else sample video_content (min video_slots video_content.length)
    let selected_content := shuffle (audio_picks ++ video_picks)
    let new_entries := selected_content.enum.map (fun pe =>
      { playlist_id := playlist.id, upload_id := pe.2.id, position := pe.1
        : PlaylistEntry })
    some (playlist,
      { db with
          playlists := db.playlists ++ [playlist]
          entries := db.entries ++ new_entries
          next_playlist_id := db.next_playlist_id + 1 })

/-- The metadata dict built for the AI host (scheduler.py lines 105-111 and
celery_tasks.py lines 79-85): title, username, media_type, description,
category of one upload. -/
structure Metadata where
  title : String
  username : String
  media_type : String
  description : String
  category : String
deriving DecidableEq, Repr

/-- The metadata dict for an upload. -/
def mkMetadata (u : Upload) : Metadata :=
  { title := u.title
    username := u.username
    media_type := u.media_type
    description := u.description
    category := u.category }

/-- What one intro request to the AI Brain came to: `ok text` when
`call_ai_brain` returned a 200 JSON body with a `text` key; `unavailable` when
it returned `None` (non-200 or connection failure); `raisedError` when an
exception escaped into `generate_intro`'s `except` clause. -/
inductive BrainResult where
  | ok (text : String)
  | unavailable
  | raisedError
deriving DecidableEq, Repr

/-- `generate_intro`'s return dict (ai_generator.py): `text` and
`personality`. -/
structure IntroResult where
  text : String
  personality : String
deriving DecidableEq, Repr

/-- `AIHost.select_personality` (ai_generator.py lines 49-63).  `hour` is
`datetime.now().hour`; `pick` resolves the binary `random.choice` (true
chooses the first element of the pair). -/
def select_personality (hour : Nat) (pick : Bool) : String :=
  if 6 ≤ hour ∧ hour < 10 then
    if pick then "energetic" else "professional"
  else if 10 ≤ hour ∧ hour < 16 then
    if pick then "professional" else "chill"
  else if 16 ≤ hour ∧ hour < 20 then
    if pick then "energetic" else "quirky"
  else
    if pick then "chill" else "quirky"

/-- `AIHost.generate_fallback_intro` (ai_generator.py lines 151-163): the
fixed template per personality, `templates.get(personality,
templates['professional'])`.  At the call sites the metadata dict always
carries the `title` and `username` keys, so the Python `dict.get` defaults for
them never apply. -/
def generate_fallback_intro (m : Metadata) (personality : String) : IntroResult :=
  let energetic := "Hey there! Here\x27s something awesome - " ++ m.title ++
    " created by " ++ m.username ++ "! Let\x27s dive in!"
  let chill := "Here\x27s a nice piece for you - " ++ m.title ++ " from " ++
    m.username ++ ". Enjoy this AI-generated creation."
  let professional := "Coming up now, we have " ++ m.title ++ " created by " ++
    m.username ++
    ". This AI-generated content showcases the creative potential of artificial intelligence."
  let quirky := "Beep boop! The AI overlords present " ++ m.title ++ " by " ++
    m.username ++ ". Prepare for artificial awesomeness!"
  { text :=
      if personality == "energetic" then energetic
      else if personality == "chill" then chill
      else if personality == "professional" then professional
      else if personality == "quirky" then quirky
      else professional
    personality := personality }

/-- `AIHost.generate_intro` (ai_generator.py lines 65-116).  Both failure
branches return the fallback dict: `unavailable` keeps the selected
personality, an escaped exception falls back with `'professional'`.  The
function is total — Python returns a dict on every path, so the callers'
`if not intro_result` guards can never fire. -/
def generate_intro (m : Metadata) (brain : BrainResult) (hour : Nat)
    (pick : Bool) : IntroResult :=
  match brain with
  | .ok t => { text := t.trim, personality := select_personality hour pick }
  | .unavailable => generate_fallback_intro m (select_personality hour pick)
  | .raisedError => generate_fallback_intro m "professional"

/-- The value a celery `generate_dj_intro` call settles to (celery_tasks.py):
the `status: success` dict carries the new segment id, `skipped` means the
idempotency check found an existing segment, `errorResult` is the
`status: error` dict. -/
inductive TaskResult where
  | success (segment_id : Nat) (intro_text : String)
  | skipped
  | errorResult (message : String)
deriving DecidableEq, Repr

/-- One try of the celery task body: either it returned a dict (`done`) or an
exception reached the `except` clause (`raised`), to be retried. -/
inductive AttemptOutcome where
  | done (r : TaskResult)
  | raised (message : String)
deriving DecidableEq, Repr

/-- One attempt of `generate_dj_intro` (celery_tasks.py lines 59-114).  `tts`
is the outcome of `tts_handler.generate_audio` (`none` = TTS failed); the
third component counts Narration Service contacts (`ai_host.generate_intro`
calls) made by the attempt.  On `raised` nothing was committed, so the
returned state is the input state.  The dead `if not intro_result` guard is
omitted: `generate_intro` always returns a dict. -/
def generate_dj_intro_attempt (db : Db) (upload_id : Nat) (brain : BrainResult)
    (tts : Option String) (hour : Nat) (pick : Bool) :
    AttemptOutcome × Db × Nat :=
  match db.uploads.find? (fun u => u.id == upload_id) with
  | none => (.done (.errorResult "Upload not found"), db, 0)
  | some upload =>
    match db.segments.find? (fun s => s.upload_id == upload_id) with
    | some _ => (.done .skipped, db, 0)
    | none =>
      let intro := generate_intro (mkMetadata upload) brain hour pick
      match tts with
      | none => (.raised "Failed to generate intro audio", db, 1)
      | some audio_path =>
        let segment : Segment :=
          { id := db.next_segment_id
            upload_id := upload_id
            dj_intro_text := intro.text
            dj_intro_audio := some audio_path
            position_in_playlist := none }
        (.done (.success segment.id intro.text),
          { db with
              segments := db.segments ++ [segment]
              next_segment_id := db.next_segment_id + 1 }, 1)

/-- The celery retry loop of `generate_dj_intro` (celery_tasks.py lines
116-124): a raised attempt is retried while `retries_left` remains, then the
last message is returned as a `status: error` dict.  `calls` accumulates
Narration Service contacts across attempts. -/
def generate_dj_intro_go (upload_id : Nat) (brain : BrainResult)
    (tts : Option String) (hour : Nat) (pick : Bool) :
    Nat → Db → Nat → TaskResult × Db × Nat
  | retries_left, db, calls =>
    match generate_dj_intro_attempt db upload_id brain tts hour pick with
    | (.done r, db', c) => (r, db', calls + c)
    | (.raised msg, db', c) =>
      match retries_left with
      | 0 => (.errorResult msg, db', calls + c)
      | n + 1 => generate_dj_intro_go upload_id brain tts hour pick n db' (calls + c)

/-- `generate_dj_intro` with its `max_retries=3` (celery_tasks.py line 48):
the initial attempt plus up to three retries. -/
def generate_dj_intro (db : Db) (upload_id : Nat) (brain : BrainResult)
    (tts : Option String) (hour : Nat) (pick : Bool) : TaskResult × Db × Nat :=
  generate_dj_intro_go upload_id brain tts hour pick 3 db 0

/-- The loop body of `PlaylistManager.generate_playlist_segments`
(scheduler.py lines 96-132), processing the remaining entries.  `tts` maps the
intro text to `tts_handler.generate_audio`'s outcome (`none` = TTS failed,
and then the segment row keeps a null `dj_intro_audio`).  An entry whose
`upload_id` resolves to no row is skipped; the schema's non-nullable foreign
key rules that case out for consistent states (theorems that need it carry the
integrity hypothesis).  Python commits once after the loop; the returned state
is that committed state. -/
def segLoop (brain : BrainResult) (tts : String → Option String) (hour : Nat)
    (pick : Bool) : List PlaylistEntry → Db → Db
  | [], db => db
  | e :: rest, db =>
    match db.uploads.find? (fun u => u.id == e.upload_id) with
    | none => segLoop brain tts hour pick rest db
    | some upload =>
      match db.segments.find? (fun s => s.upload_id == upload.id) with
      | some _ => segLoop brain tts hour pick rest db
      | none =>
        let intro := generate_intro (mkMetadata upload) brain hour pick
        let audio_path := tts intro.text
        let segment : Segment :=
          { id := db.next_segment_id
            upload_id := upload.id
            dj_intro_text := intro.text
            dj_intro_audio := audio_path
            position_in_playlist := some e.position }
        segLoop brain tts hour pick rest
          { db with
              segments := db.segments ++ [segment]
              next_segment_id := db.next_segment_id + 1 }

/-- `PlaylistManager.generate_playlist_segments` (scheduler.py lines 90-135):
`False` when the playlist id resolves to no row, otherwise runs the loop over
the playlist's entries and commits. -/
def generate_playlist_segments (db : Db) (pid : Nat) (brain : BrainResult)
    (tts : String → Option String) (hour : Nat) (pick : Bool) : Bool × Db :=
  match db.playlists.find? (fun p => p.id == pid) with
  | none => (false, db)
  | some _ => (true, segLoop brain tts hour pick (entriesOf pid db) db)

/-- The database plus the set of paths that exist on disk
(`os.path.exists`). -/
structure SysState where
  db : Db
  fs : List String
deriving DecidableEq, Repr

/-- `PlaylistManager.playlist_dir` (scheduler.py line 18). -/
def playlist_dir : String := "/Users/basil_jackson/Documents/ai_radio/media/playlists"

/-- The per-playlist export path `playlist_<id>.m3u` under `playlist_dir`
(scheduler.py line 143). -/
def m3uPath (pid : Nat) : String :=
  playlist_dir ++ "/playlist_" ++ toString pid ++ ".m3u"

/-- Python truthiness plus `os.path.exists` for an optional path: `None` and
the empty string are falsy. -/
def pathPlayable (fs : List String) : Option String → Bool
  | none => false
  | some p => !(p == "") && fs.contains p

/-- `upload.duration or -1` (scheduler.py line 159): Python `or` replaces both
`None` and a zero duration by the sentinel. -/
def durationOr (d : Option Int) : Int :=
  match d with
  | none => -1
  | some v => if v == 0 then -1 else v

/-- The `#EXTINF` line written for a DJ intro (scheduler.py line 154). -/
def introInfoLine (u : Upload) : String :=
  "#EXTINF:-1,DJ Intro - " ++ u.title

/-- The `#EXTINF` line written for the main content (scheduler.py line
160). -/
def contentInfoLine (u : Upload) : String :=
  "#EXTINF:" ++ toString (durationOr u.duration) ++ "," ++ u.title ++ " - " ++ u.username

/-- The lines the export loop body writes for one entry (scheduler.py lines
148-161): the first `Segment` row for the entry's upload decides the optional
intro pair; the content pair is written only when the upload's `filename` is
truthy and exists on disk.  An entry whose upload row is missing is skipped;
the schema's non-nullable foreign key rules that case out for consistent
states. -/
def entryLines (db : Db) (fs : List String) (e : PlaylistEntry) : List String :=
  match db.uploads.find? (fun u => u.id == e.upload_id) with
  | none => []
  | some upload =>
    let segment := db.segments.find? (fun s => s.upload_id == upload.id)
    let introPart :=
      match segment with
      | some s =>
        if pathPlayable fs s.dj_intro_audio then
          [introInfoLine upload, s.dj_intro_audio.getD ""]
        else []
      | none => []
    let contentPart :=
      match upload.filename with
      | some fn => if !(fn == "") && fs.contains fn then [contentInfoLine upload, fn] else []
      | none => []
    introPart ++ contentPart

/-- Insert an entry into a position-sorted list. -/
def insertByPos (e : PlaylistEntry) : List PlaylistEntry → List PlaylistEntry
  | [] => [e]
  | x :: xs => if e.position ≤ x.position then e :: x :: xs else x :: insertByPos e xs

/-- `sorted(playlist.entries, key=lambda x: x.position)` (scheduler.py line
148). -/
def sortByPosition : List PlaylistEntry → List PlaylistEntry
  | [] => []
  | x :: xs => insertByPos x (sortByPosition xs)

/-- `PlaylistManager.export_playlist_to_m3u` (scheduler.py lines 137-163):
`none` when the playlist id resolves to no row; otherwise the header line plus
each entry's lines, in ascending position order, written to the playlist's
m3u path.  The written lines are returned alongside the path for
inspection. -/
def export_playlist_to_m3u (st : SysState) (pid : Nat) :
    Option String × SysState × List String :=
  match st.db.playlists.find? (fun p => p.id == pid) with
  | none => (none, st, [])
  | some _ =>
    let path := m3uPath pid
    let lines :=
      "#EXTM3U" :: (sortByPosition (entriesOf pid st.db)).flatMap (entryLines st.db st.fs)
    (some path, { st with fs := path :: st.fs.filter (fun f => !(f == path)) }, lines)

/-- The path of `current.m3u` (scheduler.py line 190). -/
def currentM3uPath : String := playlist_dir ++ "/current.m3u"

/-- `PlaylistManager.update_streaming_playlist` (scheduler.py lines 186-199):
`cp m3u_path current.m3u`; a failing copy (source missing) is caught and
ignored. -/
def update_streaming_playlist (st : SysState) (m3u_path : String) : SysState :=
  if st.fs.contains m3u_path then
    { st with fs := currentM3uPath :: st.fs.filter (fun f => !(f == currentM3uPath)) }
  else st

/-- The externally observable milestones of an activation, in the order they
happen: the commit that makes the `is_active` swap visible, the completed
write of the export file, and the copy to the engine-facing path. -/
inductive Ev where
  | swapCommit (pid : Nat)
  | exportWrite (pid : Nat) (path : String)
  | publishCopy (path : String)
deriving DecidableEq, Repr

def isSwapEv : Ev → Bool
  | .swapCommit _ => true
  | _ => false

def isExportEv : Ev → Bool
  | .exportWrite _ _ => true
  | _ => false

def isPublishEv : Ev → Bool
  | .publishCopy _ => true
  | _ => false

/-- `Playlist.query.filter_by(is_active=True).first()` followed by
`current.is_active = False` (scheduler.py lines 168-170): only the first
active row is flipped. -/
def deactivate_current : List Playlist → List Playlist
  | [] => []
  | p :: ps =>
    if p.is_active then { p with is_active := false } :: ps
    else p :: deactivate_current ps

/-- `new_playlist.is_active = True` on the row fetched by primary key
(scheduler.py lines 173-175). -/
def set_active (pid : Nat) (l : List Playlist) : List Playlist :=
  l.map (fun p => if p.id == pid then { p with is_active := true } else p)

/-- `PlaylistManager.activate_playlist` (scheduler.py lines 165-184).  The
session deactivates the current holder, and if the requested playlist exists
it is flagged active and the session is committed; only then is the playlist
exported and the streaming copy refreshed.  When the playlist is missing the
uncommitted deactivation is discarded with the session and `False` is
returned.  The event trace records the observability order. -/
def activate_playlist (st : SysState) (pid : Nat) : Bool × SysState × List Ev :=
  let playlists1 := deactivate_current st.db.playlists
  match playlists1.find? (fun p => p.id == pid) with
  | none => (false, st, [])
  | some _ =>
    let db2 := { st.db with playlists := set_active pid playlists1 }
    let st1 : SysState := { st with db := db2 }
    match export_playlist_to_m3u st1 pid with
    | (some path, st2, _) =>
      let st3 := update_streaming_playlist st2 path
      (true, st3, [.swapCommit pid, .exportWrite pid path, .publishCopy path])
    | (none, st2, _) => (true, st2, [.swapCommit pid])

/-- `SchedulerService.cleanup_old_playlists`' loop body (scheduler.py lines
326-336): per old playlist, remove its m3u file if present, delete its entry
rows, delete the playlist row. -/
def cleanupLoop : List Playlist → SysState → SysState
  | [], st => st
  | p :: rest, st =>
    let path := m3uPath p.id
    let fs' := if st.fs.contains path then st.fs.filter (fun f => !(f == path)) else st.fs
    let db' :=
      { st.db with
          entries := st.db.entries.filter (fun e => !(e.playlist_id == p.id))
          playlists := st.db.playlists.filter (fun q => !(q.id == p.id)) }
    cleanupLoop rest { db := db', fs := fs' }

/-- `SchedulerService.cleanup_old_playlists` (scheduler.py lines 317-339):
`cutoff = utcnow - days_to_keep` (in seconds here), collect the inactive
playlists created strictly before it, then delete each with its entries and
exported file. -/
def cleanup_old_playlists (st : SysState) (now : Int) (days_to_keep : Int) : SysState :=
  let cutoff_date := now - days_to_keep * 86400
  let old_playlists :=
    st.db.playlists.filter (fun p => decide (p.created_at < cutoff_date) && !p.is_active)
  cleanupLoop old_playlists st

/- ===== shared list lemmas ===== -/

/-- The sampled-and-shuffled selection of `create_daily_playlist`
(scheduler.py lines 57-76), named for reuse in proofs. -/
def selectionOf (db : Db) (sample : List Upload → Nat → List Upload)
    (shuffle : List Upload → List Upload) : List Upload :=
  shuffle
    ((if (approved_audio db).isEmpty then []
      else sample (approved_audio db) (min audio_slots (approved_audio db).length)) ++
     (if (approved_video db).isEmpty then []
      else sample (approved_video db) (min video_slots (approved_video db).length)))

def takeSample : List Upload → Nat → List Upload := fun l k => l.take k

/-- A sample approved audio upload. -/
def exU1 : Upload :=
  { id := 1
    title := "Song A"
    username := "alice"
    description := "d"
    category := "c"
    media_type := "audio"
    status := "approved"
    filename := some "/m/a.mp3"
    duration := some 120 }

/-- A sample approved video upload. -/
def exU2 : Upload :=
  { id := 2
    title := "Vid B"
    username := "bob"
    description := "d"
    category := "c"
    media_type := "video"
    status := "approved"
    filename := some "/m/b.mp4"
    duration := none }

/-- A one-upload state exercising C5. -/
def exDbC : Db :=
  { uploads := [exU1]
    playlists := []
    entries := []
    segments := []
    next_playlist_id := 1
    next_segment_id := 1 }

/-- The i-th of the 40 approved audio uploads in the C6 scenario. -/
def exAudioUpload (i : Nat) : Upload :=
  { id := i
    title := "T"
    username := "u"
    description := ""
    category := ""
    media_type := "audio"
    status := "approved"
    filename := none
    duration := none }

/-- A 40-audio, 0-video state exercising the C6 scenario. -/
def exDb40 : Db :=
  { uploads := (List.range 40).map exAudioUpload
    playlists := []
    entries := []
    segments := []
    next_playlist_id := 1
    next_segment_id := 1 }

def exRun40 : Playlist × Db :=
  (create_daily_playlist exDb40 0 "d" "D" takeSample id).getD default

/-- A one-audio, one-video state exercising C10. -/
def exDbC2 : Db :=
  { uploads := [exU1, exU2]
    playlists := []
    entries := []
    segments := []
    next_playlist_id := 1
    next_segment_id := 1 }

def exRunC2 : Playlist × Db :=
  (create_daily_playlist exDbC2 0 "d" "D" takeSample id).getD default

/-- An inactive playlist row used in the activation examples. -/
def exPl5 : Playlist :=
  { id := 5
    name := "P"
    description := ""
    is_active := false
    created_at := 0 }

/-- An active playlist row used in the activation examples. -/
def exPl6 : Playlist :=
  { id := 6
    name := "Q"
    description := ""
    is_active := true
    created_at := 0 }

/-- A system state with one active playlist (6) and one draft (5). -/
def exActSt : SysState :=
  { db :=
      { uploads := []
        playlists := [exPl6, exPl5]
        entries := []
        segments := []
        next_playlist_id := 7
        next_segment_id := 1 }
    fs := [] }

/-- The segment row the celery task commits on success. -/
def mkIntroSegment (db : Db) (uid : Nat) (tx : String) (audio_path : String) : Segment :=
  { id := db.next_segment_id
    upload_id := uid
    dj_intro_text := tx
    dj_intro_audio := some audio_path
    position_in_playlist := none }

/-- The committed state after a successful celery attempt. -/
def dbAfterIntro (db : Db) (uid : Nat) (tx : String) (audio_path : String) : Db :=
  { db with
      segments := db.segments ++ [mkIntroSegment db uid tx audio_path]
      next_segment_id := db.next_segment_id + 1 }

/-- A successful first run on `exDbC` with the Narration Service down
(fallback text at the evening `chill` bucket) and TTS succeeding. -/
def exRunIntro : TaskResult × Db × Nat :=
  generate_dj_intro exDbC 1 BrainResult.unavailable (some "/m/i.mp3") 22 true

/-- A segment row as the fallback path writes it: no audio reference,
non-empty templated text from the time-of-day personality bucket. -/
def fallbackSeg (U : List Upload) (hour : Nat) (pick : Bool) (s : Segment) : Prop :=
  s.dj_intro_audio = none ∧ s.dj_intro_text ≠ "" ∧
  ∃ u ∈ U, u.id = s.upload_id ∧
    s.dj_intro_text =
      (generate_fallback_intro (mkMetadata u) (select_personality hour pick)).text

/-- The spec's narration block: present exactly when a Segment with playable
narration audio exists for the entry's item, and then the narration info line
plus that Segment's audio path line. -/
def spec_narration_block (db : Db) (fs : List String) (u : Upload) : List String :=
  match db.segments.find?
      (fun s => s.upload_id == u.id && pathPlayable fs s.dj_intro_audio) with
  | some s => [introInfoLine u, s.dj_intro_audio.getD ""]
  | none => []

/-- The claim's content block as stated: always the content info line
(`duration,Title - Creator`, `-1` for unknown) followed by the content file
path line. -/
def spec_content_block_as_stated (u : Upload) : List String :=
  [contentInfoLine u, u.filename.getD ""]

/-- One entry's export block as the claim states it. -/
def spec_entry_block_as_stated (db : Db) (fs : List String) (e : PlaylistEntry) :
    List String :=
  match db.uploads.find? (fun x => x.id == e.upload_id) with
  | none => []
  | some u => spec_narration_block db fs u ++ spec_content_block_as_stated u

/-- The amended content block: the pair appears exactly when the upload's
file path is set, non-empty and exists on disk. -/
def spec_content_block (fs : List String) (u : Upload) : List String :=
  match u.filename with
  | some fn => if fn ≠ "" ∧ fn ∈ fs then [contentInfoLine u, fn] else []
  | none => []

/-- One entry's export block under the amended claim. -/
def spec_entry_block (db : Db) (fs : List String) (e : PlaylistEntry) : List String :=
  match db.uploads.find? (fun x => x.id == e.upload_id) with
  | none => []
  | some u => spec_narration_block db fs u ++ spec_content_block fs u

/-- A playlist row for the export examples. -/
def exPl7 : Playlist :=
  { id := 7
    name := "E"
    description := ""
    is_active := false
    created_at := 0 }

/-- An export state: playlist 7 holds uploads 1 (with narration) and 2, out
of position order; upload 1's media file and its narration audio exist. -/
def exExpSt : SysState :=
  { db :=
      { uploads := [exU1, exU2]
        playlists := [exPl7]
        entries := [{ playlist_id := 7, upload_id := 2, position := 1 },
          { playlist_id := 7, upload_id := 1, position := 0 }]
        segments := [{ id := 9
                       upload_id := 1
                       dj_intro_text := "t"
                       dj_intro_audio := some "/m/i.mp3"
                       position_in_playlist := none }]
        next_playlist_id := 8
        next_segment_id := 10 }
    fs := ["/m/a.mp3", "/m/i.mp3"] }

/-- An upload whose media file is missing from disk. -/
def exUMissing : Upload :=
  { id := 3
    title := "Gone"
    username := "carol"
    description := ""
    category := ""
    media_type := "audio"
    status := "approved"
    filename := some "/m/missing.mp3"
    duration := some 10 }

/-- An export state whose single entry's content file does not exist. -/
def exExpSt2 : SysState :=
  { db :=
      { uploads := [exUMissing]
        playlists := [exPl7]
        entries := [{ playlist_id := 7, upload_id := 3, position := 0 }]
        segments := []
        next_playlist_id := 8
        next_segment_id := 10 }
    fs := [] }

/-- A playlist picked up by the retention query: created strictly before the
cutoff and not active. -/
def retentionVictim (now days_to_keep : Int) (p : Playlist) : Bool :=
  decide (p.created_at < now - days_to_keep * 86400) && !p.is_active

/-- An old active playlist (id 8) for the cleanup example. -/
def exPlOldActive : Playlist :=
  { id := 8
    name := "old-active"
    description := ""
    is_active := true
    created_at := -1000000 }

/-- An old inactive playlist (id 9) for the cleanup example. -/
def exPlOldInactive : Playlist :=
  { id := 9
    name := "old-inactive"
    description := ""
    is_active := false
    created_at := -1000000 }

/-- A cleanup state: both playlists are far older than the window; playlist
9's entry row and exported file are present. -/
def exCleanSt : SysState :=
  { db :=
      { uploads := []
        playlists := [exPlOldActive, exPlOldInactive]
        entries := [{ playlist_id := 9, upload_id := 1, position := 0 }]
        segments := []
        next_playlist_id := 10
        next_segment_id := 1 }
    fs := [m3uPath 9] }

/- ===== theorems ===== -/

theorem subpermMap {α β : Type} (f : α → β) {l1 l2 : List α}
    (h : List.Subperm l1 l2) : List.Subperm (l1.map f) (l2.map f) := by
  obtain ⟨w, hp, hs⟩ := h
  exact ⟨w.map f, hp.map f, hs.map f⟩

theorem subpermNodup {α : Type} {l1 l2 : List α} (h : List.Subperm l1 l2)
    (h2 : l2.Nodup) : l1.Nodup := by
  obtain ⟨w, hp, hs⟩ := h
  exact hp.nodup_iff.mp (h2.sublist hs)

theorem subpermAppend {α : Type} {l1 l2 r1 r2 : List α}
    (h1 : List.Subperm l1 l2) (h2 : List.Subperm r1 r2) :
    List.Subperm (l1 ++ r1) (l2 ++ r2) := by
  obtain ⟨w1, p1, s1⟩ := h1
  obtain ⟨w2, p2, s2⟩ := h2
  exact ⟨w1 ++ w2, p1.append p2, s1.append s2⟩

/-- Two mutually exclusive filters of one list concatenate into a
sub-permutation of it. -/
theorem filterPairSubperm {α : Type} (p q : α → Bool) (l : List α)
    (hpq : ∀ x ∈ l, ¬(p x = true ∧ q x = true)) :
    List.Subperm (l.filter p ++ l.filter q) l := by
  induction l with
  | nil => simp
  | cons x xs ih =>
    have ihx := ih (fun a ha => hpq a (List.mem_cons_of_mem x ha))
    by_cases hp : p x = true
    · have hq : q x = false := by
        cases hqv : q x with
        | false => rfl
        | true => exact absurd ⟨hp, hqv⟩ (hpq x (List.mem_cons_self x xs))
      simp only [List.filter_cons, hp, hq, if_true, if_false, Bool.false_eq_true,
        List.cons_append]
      exact (List.subperm_cons x).mpr ihx
    · have hp' : p x = false := Bool.eq_false_iff.mpr hp
      by_cases hq : q x = true
      · simp only [List.filter_cons, hp', hq, if_true, Bool.false_eq_true, if_false]
        exact (List.perm_middle.subperm).trans ((List.subperm_cons x).mpr ihx)
      · have hq' : q x = false := Bool.eq_false_iff.mpr hq
        simp only [List.filter_cons, hp', hq', Bool.false_eq_true, if_false]
        exact ihx.trans (List.sublist_cons_self x xs).subperm

theorem ne_empty_of_length_pos {s : String} (h : 0 < s.length) : s ≠ "" := by
  intro he
  rw [he] at h
  simp at h

/-- Filtering a list by id keeps exactly one element when the ids are distinct
and the id occurs. -/
theorem filter_id_singleton {α : Type} (f : α → Nat) (pid : Nat) :
    ∀ (l : List α), (l.map f).Nodup → pid ∈ l.map f →
      ∃ x, l.filter (fun a => f a == pid) = [x] ∧ f x = pid := by
  intro l
  induction l with
  | nil => intro _ hmem; simp at hmem
  | cons x xs ih =>
    intro hnd hmem
    simp only [List.map_cons, List.nodup_cons] at hnd
    by_cases hx : f x = pid
    · refine ⟨x, ?_, hx⟩
      have htail : xs.filter (fun a => f a == pid) = [] := by
        rw [List.filter_eq_nil_iff]
        intro a ha
        simp only [beq_iff_eq]
        intro hfa
        have hmm : f x ∈ xs.map f := by
          rw [hx, ← hfa]
          exact List.mem_map_of_mem f ha
        exact hnd.1 hmm
      simp [List.filter_cons, hx, htail]
    · have hmem' : pid ∈ xs.map f := by
        rcases List.mem_cons.mp hmem with h | h
        · exact absurd h.symm hx
        · exact h
      obtain ⟨y, hy, hfy⟩ := ih hnd.2 hmem'
      refine ⟨y, ?_, hfy⟩
      have : (f x == pid) = false := by
        simp only [beq_eq_false_iff_ne, ne_eq]
        exact hx
      simp [List.filter_cons, this, hy]

/- ===== create_daily_playlist: C5, C6, C7, C10 ===== -/

/-- What the success branch of `create_daily_playlist` commits. -/
theorem create_daily_playlist_eq_some {db : Db} {now : Int} {dS dL : String}
    {sample : List Upload → Nat → List Upload} {shuffle : List Upload → List Upload}
    {pl : Playlist} {db' : Db}
    (h : create_daily_playlist db now dS dL sample shuffle = some (pl, db')) :
    pl.is_active = false ∧ pl.id = db.next_playlist_id ∧
    db'.uploads = db.uploads ∧
    db'.playlists = db.playlists ++ [pl] ∧
    db'.entries = db.entries ++
      (selectionOf db sample shuffle).enum.map (fun pe =>
        { playlist_id := pl.id, upload_id := pe.2.id, position := pe.1
          : PlaylistEntry }) := by
  unfold create_daily_playlist at h
  dsimp only at h
  split at h
  · exact absurd h (by simp)
  · simp only [Option.some.injEq, Prod.mk.injEq] at h
    obtain ⟨hpl, hdb⟩ := h
    subst hpl
    subst hdb
    refine ⟨rfl, rfl, rfl, rfl, ?_⟩
    rfl

/-- The empty branch of `create_daily_playlist` is taken exactly when both
approved pools are empty. -/
theorem create_daily_playlist_eq_none_iff (db : Db) (now : Int) (dS dL : String)
    (sample : List Upload → Nat → List Upload) (shuffle : List Upload → List Upload) :
    create_daily_playlist db now dS dL sample shuffle = none ↔
      approved_audio db = [] ∧ approved_video db = [] := by
  unfold create_daily_playlist
  dsimp only
  split
  · next hcond =>
    simp only [Bool.and_eq_true, List.isEmpty_iff] at hcond
    simp [hcond.1, hcond.2]
  · next hcond =>
    simp only [Bool.and_eq_true, List.isEmpty_iff] at hcond
    constructor
    · intro hfalse
      exact absurd hfalse (by simp)
    · intro hboth
      exact absurd ⟨hboth.1, hboth.2⟩ hcond

/-- The new playlist's entries are exactly the appended block. -/
theorem entriesOf_after_create {db : Db} {now : Int} {dS dL : String}
    {sample : List Upload → Nat → List Upload} {shuffle : List Upload → List Upload}
    {pl : Playlist} {db' : Db}
    (hfresh : ∀ e ∈ db.entries, e.playlist_id ≠ db.next_playlist_id)
    (h : create_daily_playlist db now dS dL sample shuffle = some (pl, db')) :
    entriesOf pl.id db' =
      (selectionOf db sample shuffle).enum.map (fun pe =>
        { playlist_id := pl.id, upload_id := pe.2.id, position := pe.1
          : PlaylistEntry }) := by
  obtain ⟨-, hid, -, -, hentries⟩ := create_daily_playlist_eq_some h
  unfold entriesOf
  rw [hentries, List.filter_append]
  have hold : db.entries.filter (fun e => e.playlist_id == pl.id) = [] := by
    rw [List.filter_eq_nil_iff]
    intro e he
    simp only [beq_iff_eq]
    exact hid ▸ hfresh e he
  have hnew : ((selectionOf db sample shuffle).enum.map (fun pe =>
      { playlist_id := pl.id, upload_id := pe.2.id, position := pe.1
        : PlaylistEntry })).filter (fun e => e.playlist_id == pl.id) =
      (selectionOf db sample shuffle).enum.map (fun pe =>
        { playlist_id := pl.id, upload_id := pe.2.id, position := pe.1
          : PlaylistEntry }) := by
    rw [List.filter_eq_self]
    intro e he
    simp only [List.mem_map] at he
    obtain ⟨pe, -, hpe⟩ := he
    rw [← hpe]
    simp
  rw [hold, hnew, List.nil_append]

/-- C5.  For every state with a non-empty approved audio or video pool,
`create_daily_playlist` returns a persisted draft playlist with
`is_active = false` whose entry positions are exactly the contiguous sequence
`0..n-1` (so no gaps and no duplicate positions). -/
theorem create_daily_playlist_positions (db : Db) (now : Int) (dS dL : String)
    (sample : List Upload → Nat → List Upload) (shuffle : List Upload → List Upload)
    (hfresh : ∀ e ∈ db.entries, e.playlist_id ≠ db.next_playlist_id)
    (hpool : approved_audio db ≠ [] ∨ approved_video db ≠ []) :
    ∃ pl db', create_daily_playlist db now dS dL sample shuffle = some (pl, db') ∧
      pl.is_active = false ∧ pl ∈ db'.playlists ∧
      (entriesOf pl.id db').map (fun e => e.position) =
        List.range (entriesOf pl.id db').length := by
  cases hres : create_daily_playlist db now dS dL sample shuffle with
  | none =>
    rw [create_daily_playlist_eq_none_iff] at hres
    rcases hpool with h | h
    · exact absurd hres.1 h
    · exact absurd hres.2 h
  | some pr =>
    obtain ⟨pl, db'⟩ := pr
    obtain ⟨hact, hid, hup, hpls, hent⟩ := create_daily_playlist_eq_some hres
    have hE := entriesOf_after_create hfresh hres
    refine ⟨pl, db', rfl, hact, ?_, ?_⟩
    · rw [hpls]
      exact List.mem_append_right _ (List.mem_singleton.mpr rfl)
    · rw [hE]
      simp only [List.map_map, List.length_map, List.enum_length]
      have : ((fun e => e.position) ∘ (fun pe =>
          { playlist_id := pl.id, upload_id := pe.2.id, position := pe.1
            : PlaylistEntry })) = (Prod.fst : Nat × Upload → Nat) := rfl
      rw [this, List.enum_map_fst]

theorem create_daily_playlist_positions_witness :
    ∃ pl db', create_daily_playlist exDbC 0 "d" "D" takeSample id = some (pl, db') ∧
      pl.is_active = false ∧ pl ∈ db'.playlists ∧
      (entriesOf pl.id db').map (fun e => e.position) =
        List.range (entriesOf pl.id db').length :=
  create_daily_playlist_positions exDbC 0 "d" "D" takeSample id
    (by intro e he; simp [exDbC] at he) (Or.inl (by decide))

/-- C6.  The draft selects `min 35 |audio pool|` audio and `min 15 |video
pool|` video items: the entry count is that sum, never above the 50-slot
target and never above either pool's size. -/
theorem create_daily_playlist_slot_counts (db : Db) (now : Int) (dS dL : String)
    (sample : List Upload → Nat → List Upload) (shuffle : List Upload → List Upload)
    (pl : Playlist) (db' : Db)
    (hlen : ∀ l k, (sample l k).length = min k l.length)
    (hshuffle : ∀ l, List.Perm (shuffle l) l)
    (hfresh : ∀ e ∈ db.entries, e.playlist_id ≠ db.next_playlist_id)
    (h : create_daily_playlist db now dS dL sample shuffle = some (pl, db')) :
    (entriesOf pl.id db').length =
      min audio_slots (approved_audio db).length +
        min video_slots (approved_video db).length ∧
    min audio_slots (approved_audio db).length +
      min video_slots (approved_video db).length ≤ total_slots ∧
    min audio_slots (approved_audio db).length ≤ (approved_audio db).length ∧
    min video_slots (approved_video db).length ≤ (approved_video db).length ∧
    audio_slots = 35 ∧ video_slots = 15 ∧ total_slots = 50 := by
  have hE := entriesOf_after_create hfresh h
  have hlenA : (if (approved_audio db).isEmpty then []
      else sample (approved_audio db) (min audio_slots (approved_audio db).length)).length =
      min audio_slots (approved_audio db).length := by
    split
    · next he =>
      rw [List.isEmpty_iff] at he
      simp [he]
    · next he =>
      rw [hlen]
      exact min_eq_left (min_le_right _ _)
  have hlenV : (if (approved_video db).isEmpty then []
      else sample (approved_video db) (min video_slots (approved_video db).length)).length =
      min video_slots (approved_video db).length := by
    split
    · next he =>
      rw [List.isEmpty_iff] at he
      simp [he]
    · next he =>
      rw [hlen]
      exact min_eq_left (min_le_right _ _)
  constructor
  · rw [hE]
    simp only [List.length_map, List.enum_length, selectionOf]
    rw [(hshuffle _).length_eq, List.length_append, hlenA, hlenV]
  refine ⟨?_, min_le_right _ _, min_le_right _ _, by decide, by decide, by decide⟩
  have h1 : min audio_slots (approved_audio db).length ≤ 35 := by
    have h35 := min_le_left audio_slots (approved_audio db).length
    simp only [audio_slots, total_slots] at h35
    exact h35
  have h2 : min video_slots (approved_video db).length ≤ 15 := by
    have h15 := min_le_left video_slots (approved_video db).length
    simp only [video_slots, audio_slots, total_slots] at h15
    exact h15
  simp only [total_slots]
  omega

theorem create_daily_playlist_slot_counts_witness :
    ((entriesOf exRun40.1.id exRun40.2).length =
        min audio_slots (approved_audio exDb40).length +
          min video_slots (approved_video exDb40).length ∧
      min audio_slots (approved_audio exDb40).length +
        min video_slots (approved_video exDb40).length ≤ total_slots ∧
      min audio_slots (approved_audio exDb40).length ≤ (approved_audio exDb40).length ∧
      min video_slots (approved_video exDb40).length ≤ (approved_video exDb40).length ∧
      audio_slots = 35 ∧ video_slots = 15 ∧ total_slots = 50) ∧
    (entriesOf exRun40.1.id exRun40.2).length = 35 :=
  ⟨create_daily_playlist_slot_counts exDb40 0 "d" "D" takeSample id exRun40.1 exRun40.2
      (fun l k => List.length_take k l) (fun l => List.Perm.refl l)
      (by intro e he; simp [exDb40] at he) rfl,
    by rfl⟩

/-- C7.  `create_daily_playlist` returns the failure value exactly when both
approved pools are empty; whenever one pool is non-empty it returns a
playlist persisted in the committed state (in draft, inactive form). -/
theorem create_daily_playlist_none_iff_no_content (db : Db) (now : Int)
    (dS dL : String) (sample : List Upload → Nat → List Upload)
    (shuffle : List Upload → List Upload) :
    (create_daily_playlist db now dS dL sample shuffle = none ↔
      approved_audio db = [] ∧ approved_video db = []) ∧
    (∀ pl db', create_daily_playlist db now dS dL sample shuffle = some (pl, db') →
      pl ∈ db'.playlists ∧ pl.is_active = false) := by
  refine ⟨create_daily_playlist_eq_none_iff db now dS dL sample shuffle, ?_⟩
  intro pl db' h
  obtain ⟨hact, -, -, hpls, -⟩ := create_daily_playlist_eq_some h
  exact ⟨hpls ▸ List.mem_append_right _ (List.mem_singleton.mpr rfl), hact⟩

/-- C10.  Under the `random.sample` (draw without replacement from the
approved pool) and `random.shuffle` (permutation) contracts, and primary-key
distinctness of upload ids, the generated playlist references each upload at
most once: its entries carry pairwise distinct `upload_id`s. -/
theorem create_daily_playlist_distinct_uploads (db : Db) (now : Int)
    (dS dL : String) (sample : List Upload → Nat → List Upload)
    (shuffle : List Upload → List Upload) (pl : Playlist) (db' : Db)
    (hids : (db.uploads.map (fun u => u.id)).Nodup)
    (hsub : ∀ l k, List.Subperm (sample l k) l)
    (hshuffle : ∀ l, List.Perm (shuffle l) l)
    (hfresh : ∀ e ∈ db.entries, e.playlist_id ≠ db.next_playlist_id)
    (h : create_daily_playlist db now dS dL sample shuffle = some (pl, db')) :
    ((entriesOf pl.id db').map (fun e => e.upload_id)).Nodup ∧
    (entriesOf pl.id db').Pairwise (fun e1 e2 => e1.upload_id ≠ e2.upload_id) := by
  have hE := entriesOf_after_create hfresh h
  have hidEq : (entriesOf pl.id db').map (fun e => e.upload_id) =
      (selectionOf db sample shuffle).map (fun u => u.id) := by
    rw [hE]
    simp only [List.map_map]
    have h1 : ((fun e => e.upload_id) ∘ (fun pe =>
        { playlist_id := pl.id, upload_id := pe.2.id, position := pe.1
          : PlaylistEntry })) = (fun u => u.id) ∘ Prod.snd (α := Nat) (β := Upload) := rfl
    rw [h1, ← List.map_map, List.enum_map_snd]
  have hsubA : List.Subperm
      (if (approved_audio db).isEmpty then []
        else sample (approved_audio db) (min audio_slots (approved_audio db).length))
      (approved_audio db) := by
    split
    · exact List.nil_subperm
    · exact hsub _ _
  have hsubV : List.Subperm
      (if (approved_video db).isEmpty then []
        else sample (approved_video db) (min video_slots (approved_video db).length))
      (approved_video db) := by
    split
    · exact List.nil_subperm
    · exact hsub _ _
  have hdisj : ∀ u ∈ db.uploads,
      ¬((u.status == "approved" && u.media_type == "audio") = true ∧
        (u.status == "approved" && u.media_type == "video") = true) := by
    intro u _ hcontra
    obtain ⟨ha, hv⟩ := hcontra
    simp only [Bool.and_eq_true, beq_iff_eq] at ha hv
    rw [ha.2] at hv
    exact absurd hv.2 (by decide)
  have hpools : List.Subperm (approved_audio db ++ approved_video db) db.uploads :=
    filterPairSubperm _ _ db.uploads hdisj
  have hsel : List.Subperm (selectionOf db sample shuffle) db.uploads :=
    ((hshuffle _).subperm).trans ((subpermAppend hsubA hsubV).trans hpools)
  have hnodup : ((selectionOf db sample shuffle).map (fun u => u.id)).Nodup :=
    subpermNodup (subpermMap (fun u => u.id) hsel) hids
  refine ⟨hidEq ▸ hnodup, ?_⟩
  have : ((entriesOf pl.id db').map (fun e => e.upload_id)).Nodup := hidEq ▸ hnodup
  rw [List.Nodup, List.pairwise_map] at this
  exact this

theorem create_daily_playlist_distinct_uploads_witness :
    ((entriesOf exRunC2.1.id exRunC2.2).map (fun e => e.upload_id)).Nodup ∧
    (entriesOf exRunC2.1.id exRunC2.2).Pairwise
      (fun e1 e2 => e1.upload_id ≠ e2.upload_id) :=
  create_daily_playlist_distinct_uploads exDbC2 0 "d" "D" takeSample id
    exRunC2.1 exRunC2.2 (by decide)
    (fun l k => (List.take_sublist k l).subperm) (fun l => List.Perm.refl l)
    (by intro e he; simp [exDbC2] at he) rfl

/- ===== activation: C1, C2 ===== -/

theorem deactivate_current_ids (l : List Playlist) :
    (deactivate_current l).map (fun p => p.id) = l.map (fun p => p.id) := by
  induction l with
  | nil => rfl
  | cons p ps ih =>
    unfold deactivate_current
    split
    · simp
    · simp [ih]

theorem deactivate_current_inactive (l : List Playlist)
    (hone : (l.filter (fun p => p.is_active)).length ≤ 1) :
    ∀ q ∈ deactivate_current l, q.is_active = false := by
  induction l with
  | nil => intro q hq; cases hq
  | cons p ps ih =>
    intro q hq
    unfold deactivate_current at hq
    by_cases hp : p.is_active = true
    · rw [if_pos hp] at hq
      rcases List.mem_cons.mp hq with h | h
      · rw [h]
      · have hlen : (ps.filter (fun r => r.is_active)).length = 0 := by
          rw [List.filter_cons, if_pos hp] at hone
          simp only [List.length_cons] at hone
          omega
        have hnil : ps.filter (fun r => r.is_active) = [] := List.length_eq_zero.mp hlen
        cases hqa : q.is_active with
        | false => rfl
        | true =>
          have : q ∈ ps.filter (fun r => r.is_active) := List.mem_filter.mpr ⟨h, hqa⟩
          rw [hnil] at this
          cases this
    · rw [if_neg hp] at hq
      rcases List.mem_cons.mp hq with h | h
      · rw [h]
        exact Bool.eq_false_iff.mpr hp
      · apply ih ?_ q h
        rw [List.filter_cons, if_neg hp] at hone
        exact hone

theorem update_streaming_playlist_db (st : SysState) (p : String) :
    (update_streaming_playlist st p).db = st.db := by
  unfold update_streaming_playlist
  split
  · rfl
  · rfl

theorem set_active_ids (pid : Nat) (l : List Playlist) :
    (set_active pid l).map (fun p => p.id) = l.map (fun p => p.id) := by
  unfold set_active
  rw [List.map_map]
  apply List.map_congr_left
  intro p _
  simp only [Function.comp_apply]
  split
  · rfl
  · rfl

theorem set_active_mem_active (pid : Nat) (l : List Playlist)
    (hl : ∀ q ∈ l, q.is_active = false) :
    ∀ q ∈ set_active pid l, q.is_active = (q.id == pid) := by
  intro q hq
  unfold set_active at hq
  rcases List.mem_map.mp hq with ⟨p, hp, hpq⟩
  by_cases hid : (p.id == pid) = true
  · rw [if_pos hid] at hpq
    rw [← hpq]
    simp only []
    rw [show ({ p with is_active := true } : Playlist).id = p.id from rfl, hid]
  · rw [if_neg hid] at hpq
    rw [← hpq]
    rw [hl p hp, Bool.eq_false_iff.mpr hid]

/-- The shape of a successful activation: the requested playlist exists after
deactivation, the committed playlist table is `set_active` of the
deactivated table, and the milestone trace is swap-commit, then export
write, then publish copy. -/
theorem activate_playlist_char (st : SysState) (pid : Nat)
    (hfind : (deactivate_current st.db.playlists).find? (fun p => p.id == pid) ≠ none) :
    (activate_playlist st pid).1 = true ∧
    (activate_playlist st pid).2.1.db.playlists =
      set_active pid (deactivate_current st.db.playlists) ∧
    (activate_playlist st pid).2.2 =
      [Ev.swapCommit pid, Ev.exportWrite pid (m3uPath pid), Ev.publishCopy (m3uPath pid)] := by
  unfold activate_playlist
  rcases hf1 : (deactivate_current st.db.playlists).find? (fun p => p.id == pid) with _ | p
  · exact absurd hf1 hfind
  · have hmemp := List.mem_of_find?_eq_some hf1
    have hidp := List.find?_some hf1
    have hex : ∃ q ∈ set_active pid (deactivate_current st.db.playlists),
        (q.id == pid) = true := by
      refine ⟨if (p.id == pid) = true then { p with is_active := true } else p, ?_, ?_⟩
      · unfold set_active
        have := List.mem_map_of_mem
          (fun r => if r.id == pid then { r with is_active := true } else r) hmemp
        simpa using this
      · by_cases hid : (p.id == pid) = true
        · rw [if_pos hid]
          exact hid
        · rw [if_neg hid]
          exact hidp
    have hsome : ((set_active pid (deactivate_current st.db.playlists)).find?
        (fun q => q.id == pid)).isSome := List.find?_isSome.mpr hex
    rcases hf2 : (set_active pid (deactivate_current st.db.playlists)).find?
        (fun q => q.id == pid) with _ | q
    · rw [hf2] at hsome
      cases hsome
    · refine ⟨?_, ?_, ?_⟩ <;>
        simp [hf1, export_playlist_to_m3u, hf2, update_streaming_playlist_db]

/-- C1.  From any committed state with at most one active playlist and
primary-key-distinct playlist ids, activating an existing playlist `pid`
succeeds and leaves `pid` as the one active playlist: a playlist is active
in the committed result iff its id is `pid`, and exactly one row is
active — never zero, never two. -/
theorem activate_playlist_unique_active (st : SysState) (pid : Nat)
    (hone : (st.db.playlists.filter (fun p => p.is_active)).length ≤ 1)
    (hnodup : (st.db.playlists.map (fun p => p.id)).Nodup)
    (hmem : pid ∈ st.db.playlists.map (fun p => p.id)) :
    (activate_playlist st pid).1 = true ∧
    (∀ q ∈ (activate_playlist st pid).2.1.db.playlists,
      q.is_active = (q.id == pid)) ∧
    ((activate_playlist st pid).2.1.db.playlists.filter
      (fun p => p.is_active)).length = 1 := by
  have hmem1 : pid ∈ (deactivate_current st.db.playlists).map (fun p => p.id) := by
    rw [deactivate_current_ids]
    exact hmem
  have hfind : (deactivate_current st.db.playlists).find? (fun p => p.id == pid) ≠ none := by
    rcases List.mem_map.mp hmem1 with ⟨p, hp, hpid⟩
    have : ((deactivate_current st.db.playlists).find? (fun p => p.id == pid)).isSome :=
      List.find?_isSome.mpr ⟨p, hp, by simp [hpid]⟩
    intro hnone
    rw [hnone] at this
    cases this
  obtain ⟨hret, hpls, -⟩ := activate_playlist_char st pid hfind
  have hinactive := deactivate_current_inactive st.db.playlists hone
  have hactiveIff := set_active_mem_active pid (deactivate_current st.db.playlists) hinactive
  refine ⟨hret, ?_, ?_⟩
  · rw [hpls]
    exact hactiveIff
  · rw [hpls]
    rw [List.filter_congr hactiveIff]
    have hnodup1 : ((set_active pid (deactivate_current st.db.playlists)).map
        (fun p => p.id)).Nodup := by
      rw [set_active_ids, deactivate_current_ids]
      exact hnodup
    have hmem2 : pid ∈ (set_active pid (deactivate_current st.db.playlists)).map
        (fun p => p.id) := by
      rw [set_active_ids]
      exact hmem1
    obtain ⟨x, hx, -⟩ := filter_id_singleton (fun p : Playlist => p.id) pid _ hnodup1 hmem2
    rw [hx]
    rfl

theorem activate_playlist_unique_active_witness :
    (activate_playlist exActSt 5).1 = true ∧
    (∀ q ∈ (activate_playlist exActSt 5).2.1.db.playlists,
      q.is_active = (q.id == 5)) ∧
    ((activate_playlist exActSt 5).2.1.db.playlists.filter
      (fun p => p.is_active)).length = 1 :=
  activate_playlist_unique_active exActSt 5 (by decide) (by decide) (by decide)

/-- C2 (amended).  In every successful activation the swap commit is the
first observable milestone: the trace is swap-commit, then export write,
then publish copy, so the export completes after the active-flag swap is
already observable (and before the engine-facing copy). -/
theorem activate_playlist_swap_then_export (st : SysState) (pid : Nat)
    (hres : (activate_playlist st pid).1 = true) :
    (activate_playlist st pid).2.2 =
      [Ev.swapCommit pid, Ev.exportWrite pid (m3uPath pid), Ev.publishCopy (m3uPath pid)] ∧
    (activate_playlist st pid).2.2.findIdx isSwapEv <
      (activate_playlist st pid).2.2.findIdx isExportEv ∧
    (activate_playlist st pid).2.2.findIdx isExportEv <
      (activate_playlist st pid).2.2.findIdx isPublishEv := by
  have hfind : (deactivate_current st.db.playlists).find? (fun p => p.id == pid) ≠ none := by
    intro hnone
    unfold activate_playlist at hres
    dsimp only at hres
    rw [hnone] at hres
    simp at hres
  obtain ⟨-, -, htr⟩ := activate_playlist_char st pid hfind
  refine ⟨htr, ?_, ?_⟩
  · rw [htr]
    simp [List.findIdx_cons, isSwapEv, isExportEv]
  · rw [htr]
    simp [List.findIdx_cons, isExportEv, isPublishEv]

theorem activate_playlist_swap_then_export_witness :
    (activate_playlist exActSt 5).2.2 =
      [Ev.swapCommit 5, Ev.exportWrite 5 (m3uPath 5), Ev.publishCopy (m3uPath 5)] ∧
    (activate_playlist exActSt 5).2.2.findIdx isSwapEv <
      (activate_playlist exActSt 5).2.2.findIdx isExportEv ∧
    (activate_playlist exActSt 5).2.2.findIdx isExportEv <
      (activate_playlist exActSt 5).2.2.findIdx isPublishEv :=
  activate_playlist_swap_then_export exActSt 5 (by decide)

/-- C2 counterexample.  At a concrete state the activation succeeds, yet the
export-write milestone does not precede the swap-commit milestone — the
active flag is committed while the export file has not been written, so the
claim "export completes before the swap is observable" is false of the
code. -/
theorem activate_export_not_before_swap_cex :
    (activate_playlist exActSt 5).1 = true ∧
    ¬ ((activate_playlist exActSt 5).2.2.findIdx isExportEv <
        (activate_playlist exActSt 5).2.2.findIdx isSwapEv) := by
  decide

/- ===== ensureSegment (generate_dj_intro): C3, C4 ===== -/

theorem generate_dj_intro_attempt_success_inv {db : Db} {uid : Nat}
    {brain : BrainResult} {tts : Option String} {hour : Nat} {pick : Bool}
    {db' : Db} {c : Nat} {sid : Nat} {tx : String}
    (h : generate_dj_intro_attempt db uid brain tts hour pick =
      (.done (.success sid tx), db', c)) :
    ∃ upload audio_path,
      db.uploads.find? (fun u => u.id == uid) = some upload ∧
      db.segments.find? (fun s => s.upload_id == uid) = none ∧
      tts = some audio_path ∧
      c = 1 ∧
      sid = db.next_segment_id ∧
      tx = (generate_intro (mkMetadata upload) brain hour pick).text ∧
      db' = dbAfterIntro db uid tx audio_path := by
  unfold generate_dj_intro_attempt at h
  split at h
  · simp at h
  · next upload hfu =>
    split at h
    · simp at h
    · next hfs =>
      split at h
      · simp at h
      · next audio_path =>
        simp only [Prod.mk.injEq, AttemptOutcome.done.injEq,
          TaskResult.success.injEq] at h
        obtain ⟨⟨hsid, htx⟩, hdb, hc⟩ := h
        refine ⟨upload, audio_path, hfu, hfs, rfl, hc.symm, hsid.symm, htx.symm, ?_⟩
        rw [← hdb, ← htx]
        rfl

theorem generate_dj_intro_attempt_raised_inv {db : Db} {uid : Nat}
    {brain : BrainResult} {tts : Option String} {hour : Nat} {pick : Bool}
    {db' : Db} {c : Nat} {msg : String}
    (h : generate_dj_intro_attempt db uid brain tts hour pick =
      (.raised msg, db', c)) : db' = db := by
  unfold generate_dj_intro_attempt at h
  split at h
  · simp at h
  · split at h
    · simp at h
    · split at h
      · simp only [Prod.mk.injEq] at h
        exact h.2.1.symm
      · simp at h

/-- A successful retry loop succeeds on its first attempt (the oracles and,
on a raised attempt, the state are unchanged between attempts, so a first
attempt that raises can never be followed by success). -/
theorem generate_dj_intro_go_success_inv {uid : Nat} {brain : BrainResult}
    {tts : Option String} {hour : Nat} {pick : Bool} {sid : Nat} {tx : String} :
    ∀ (n : Nat) (db : Db) (calls : Nat),
      (generate_dj_intro_go uid brain tts hour pick n db calls).1 =
        TaskResult.success sid tx →
      ∃ db1,
        generate_dj_intro_attempt db uid brain tts hour pick =
          (.done (.success sid tx), db1, 1) ∧
        (generate_dj_intro_go uid brain tts hour pick n db calls).2.1 = db1 ∧
        (generate_dj_intro_go uid brain tts hour pick n db calls).2.2 = calls + 1 := by
  intro n
  induction n with
  | zero =>
    intro db calls h
    rcases ha : generate_dj_intro_attempt db uid brain tts hour pick with ⟨o, db1, c⟩
    cases o with
    | done r =>
      have hred : generate_dj_intro_go uid brain tts hour pick 0 db calls =
          (r, db1, calls + c) := by
        unfold generate_dj_intro_go
        rw [ha]
      rw [hred] at h
      simp only at h
      rw [h] at ha
      obtain ⟨-, -, -, -, -, hc, -, -, -⟩ := generate_dj_intro_attempt_success_inv ha
      subst hc
      exact ⟨db1, by rw [h], by rw [hred], by rw [hred]⟩
    | raised msg =>
      have hred : generate_dj_intro_go uid brain tts hour pick 0 db calls =
          (.errorResult msg, db1, calls + c) := by
        unfold generate_dj_intro_go
        rw [ha]
      rw [hred] at h
      simp at h
  | succ n ih =>
    intro db calls h
    rcases ha : generate_dj_intro_attempt db uid brain tts hour pick with ⟨o, db1, c⟩
    cases o with
    | done r =>
      have hred : generate_dj_intro_go uid brain tts hour pick (n + 1) db calls =
          (r, db1, calls + c) := by
        unfold generate_dj_intro_go
        rw [ha]
      rw [hred] at h
      simp only at h
      rw [h] at ha
      obtain ⟨-, -, -, -, -, hc, -, -, -⟩ := generate_dj_intro_attempt_success_inv ha
      subst hc
      exact ⟨db1, by rw [h], by rw [hred], by rw [hred]⟩
    | raised msg =>
      have hdb1 : db1 = db := generate_dj_intro_attempt_raised_inv ha
      rw [hdb1] at ha
      have hred : generate_dj_intro_go uid brain tts hour pick (n + 1) db calls =
          generate_dj_intro_go uid brain tts hour pick n db (calls + c) := by
        conv_lhs => rw [generate_dj_intro_go.eq_def]
        dsimp only
        rw [ha]
      rw [hred] at h
      obtain ⟨db2, hatt, -, -⟩ := ih db (calls + c) h
      rw [ha] at hatt
      simp at hatt

/-- C3.  `ensureSegment` idempotency for the celery task: after a first
`generate_dj_intro` call that succeeded (persisting the segment whose id it
returned — exactly one new row), a second call for the same upload, under any
oracle outcomes, reports `skipped`, leaves the committed state untouched,
contacts the Narration Service zero times, and the segment looked up by the
idempotency key (the upload id) still has the id the first call returned. -/
theorem generate_dj_intro_idempotent (db : Db) (uid : Nat) (b1 b2 : BrainResult)
    (t1 t2 : Option String) (h1 h2 : Nat) (p1 p2 : Bool) (sid : Nat) (tx : String)
    (hsucc : (generate_dj_intro db uid b1 t1 h1 p1).1 = TaskResult.success sid tx) :
    (generate_dj_intro (generate_dj_intro db uid b1 t1 h1 p1).2.1 uid b2 t2 h2 p2).1 =
      TaskResult.skipped ∧
    (generate_dj_intro (generate_dj_intro db uid b1 t1 h1 p1).2.1 uid b2 t2 h2 p2).2.1 =
      (generate_dj_intro db uid b1 t1 h1 p1).2.1 ∧
    (generate_dj_intro (generate_dj_intro db uid b1 t1 h1 p1).2.1 uid b2 t2 h2 p2).2.2 = 0 ∧
    ((generate_dj_intro db uid b1 t1 h1 p1).2.1.segments.find?
        (fun s => s.upload_id == uid)).map (fun s => s.id) = some sid ∧
    (generate_dj_intro db uid b1 t1 h1 p1).2.1.segments.length =
      db.segments.length + 1 := by
  obtain ⟨db1, hatt, hst, -⟩ := generate_dj_intro_go_success_inv 3 db 0 hsucc
  obtain ⟨upload, audio_path, hfu, hfs, -, -, hsid, htx, hdb1⟩ :=
    generate_dj_intro_attempt_success_inv hatt
  have hfu1 : db1.uploads.find? (fun u => u.id == uid) = some upload := by
    rw [hdb1]
    exact hfu
  have hfs1 : db1.segments.find? (fun s => s.upload_id == uid) =
      some (mkIntroSegment db uid tx audio_path) := by
    rw [hdb1]
    show (db.segments ++ [mkIntroSegment db uid tx audio_path]).find?
      (fun s => s.upload_id == uid) = _
    rw [List.find?_append, hfs]
    simp [mkIntroSegment]
  have hatt1 : generate_dj_intro_attempt db1 uid b2 t2 h2 p2 =
      (.done .skipped, db1, 0) := by
    unfold generate_dj_intro_attempt
    rw [hfu1, hfs1]
  have hrun2 : generate_dj_intro db1 uid b2 t2 h2 p2 = (.skipped, db1, 0) := by
    show generate_dj_intro_go uid b2 t2 h2 p2 3 db1 0 = _
    conv_lhs => rw [generate_dj_intro_go.eq_def]
    dsimp only
    rw [hatt1]
  have hst2 : (generate_dj_intro db uid b1 t1 h1 p1).2.1 = db1 := hst
  rw [hst2]
  refine ⟨by rw [hrun2], by rw [hrun2], by rw [hrun2], ?_, ?_⟩
  · rw [hfs1, hsid]
    rfl
  · rw [hdb1]
    simp [dbAfterIntro]

theorem generate_dj_intro_idempotent_witness :
    (generate_dj_intro exRunIntro.2.1 1 BrainResult.unavailable none 3 false).1 =
      TaskResult.skipped ∧
    (generate_dj_intro exRunIntro.2.1 1 BrainResult.unavailable none 3 false).2.1 =
      exRunIntro.2.1 ∧
    (generate_dj_intro exRunIntro.2.1 1 BrainResult.unavailable none 3 false).2.2 = 0 ∧
    (exRunIntro.2.1.segments.find? (fun s => s.upload_id == 1)).map (fun s => s.id) =
      some 1 ∧
    exRunIntro.2.1.segments.length = exDbC.segments.length + 1 :=
  generate_dj_intro_idempotent exDbC 1 BrainResult.unavailable BrainResult.unavailable
    (some "/m/i.mp3") none 22 3 true false 1
    "Here\x27s a nice piece for you - Song A from alice. Enjoy this AI-generated creation."
    rfl

theorem generate_fallback_intro_text_ne_empty (m : Metadata) (ps : String) :
    (generate_fallback_intro m ps).text ≠ "" := by
  have e1 : 0 < String.length "Hey there! Here\x27s something awesome - " := by decide
  have e2 : 0 < String.length "Here\x27s a nice piece for you - " := by decide
  have e3 : 0 < String.length "Coming up now, we have " := by decide
  have e4 : 0 < String.length "Beep boop! The AI overlords present " := by decide
  apply ne_empty_of_length_pos
  unfold generate_fallback_intro
  dsimp only
  repeat' split
  all_goals simp only [String.length_append]
  all_goals omega

theorem segLoop_uploads (brain : BrainResult) (tts : String → Option String)
    (hour : Nat) (pick : Bool) :
    ∀ (l : List PlaylistEntry) (db : Db),
      (segLoop brain tts hour pick l db).uploads = db.uploads := by
  intro l
  induction l with
  | nil => intro db; rfl
  | cons e rest ih =>
    intro db
    unfold segLoop
    split
    · exact ih db
    · split
      · exact ih db
      · exact ih _

theorem segLoop_segments_mono (brain : BrainResult) (tts : String → Option String)
    (hour : Nat) (pick : Bool) :
    ∀ (l : List PlaylistEntry) (db : Db) (s : Segment),
      s ∈ db.segments → s ∈ (segLoop brain tts hour pick l db).segments := by
  intro l
  induction l with
  | nil => intro db s hs; exact hs
  | cons e rest ih =>
    intro db s hs
    unfold segLoop
    split
    · exact ih db s hs
    · split
      · exact ih db s hs
      · exact ih _ s (List.mem_append_left _ hs)

/-- Every entry whose upload had no segment before the loop ran ends the
fallback-mode loop (Narration Service down, TTS down) with a persisted
fallback segment. -/
theorem segLoop_fallback (hour : Nat) (pick : Bool) (U : List Upload)
    (base : List Segment) :
    ∀ (l : List PlaylistEntry) (db : Db),
      db.uploads = U →
      (∀ s ∈ db.segments, s ∈ base ∨ fallbackSeg U hour pick s) →
      ∀ e ∈ l, (∃ u ∈ U, u.id = e.upload_id) →
        (∀ s ∈ base, s.upload_id ≠ e.upload_id) →
        ∃ s ∈ (segLoop .unavailable (fun _ => none) hour pick l db).segments,
          s.upload_id = e.upload_id ∧ fallbackSeg U hour pick s := by
  intro l
  induction l with
  | nil =>
    intro db hU hinv e he
    cases he
  | cons e0 rest ih =>
    intro db hU hinv e he hFK hbase
    rcases hfu : db.uploads.find? (fun u => u.id == e0.upload_id) with _ | u
    · have hred : segLoop .unavailable (fun _ => none) hour pick (e0 :: rest) db =
          segLoop .unavailable (fun _ => none) hour pick rest db := by
        conv_lhs => rw [segLoop.eq_def]
        dsimp only
        rw [hfu]
      rw [hred]
      rcases List.mem_cons.mp he with heq | hrest
      · subst heq
        obtain ⟨u, hu, hid⟩ := hFK
        have : (db.uploads.find? (fun x => x.id == e.upload_id)).isSome :=
          List.find?_isSome.mpr ⟨u, hU ▸ hu, by simp [hid]⟩
        rw [hfu] at this
        cases this
      · exact ih db hU hinv e hrest hFK hbase
    · have huid : u.id = e0.upload_id := by
        have := List.find?_some hfu
        exact eq_of_beq this
      rcases hfs : db.segments.find? (fun s => s.upload_id == u.id) with _ | s0
      · -- no segment yet: the loop creates the fallback segment
        have hred : segLoop .unavailable (fun _ => none) hour pick (e0 :: rest) db =
            segLoop .unavailable (fun _ => none) hour pick rest
              { db with
                  segments := db.segments ++
                    [{ id := db.next_segment_id
                       upload_id := u.id
                       dj_intro_text :=
                         (generate_intro (mkMetadata u) .unavailable hour pick).text
                       dj_intro_audio := none
                       position_in_playlist := some e0.position }]
                  next_segment_id := db.next_segment_id + 1 } := by
          simp only [segLoop, hfu, hfs]
        have hgood : fallbackSeg U hour pick
            { id := db.next_segment_id
              upload_id := u.id
              dj_intro_text :=
                (generate_intro (mkMetadata u) .unavailable hour pick).text
              dj_intro_audio := none
              position_in_playlist := some e0.position } := by
          refine ⟨rfl, ?_, u, hU ▸ List.mem_of_find?_eq_some hfu, rfl, rfl⟩
          exact generate_fallback_intro_text_ne_empty (mkMetadata u) _
        rw [hred]
        rcases List.mem_cons.mp he with heq | hrest
        · subst heq
          refine ⟨_, segLoop_segments_mono _ _ _ _ rest _ _
            (List.mem_append_right _ (List.mem_singleton.mpr rfl)), huid, hgood⟩
        · refine ih _ (by rw [← hU]) ?_ e hrest hFK hbase
          intro s hs
          rcases List.mem_append.mp hs with hl | hr
          · exact hinv s hl
          · rw [List.mem_singleton.mp hr]
            exact Or.inr hgood
      · -- an earlier segment exists: entry skipped, but the segment is good
        have hred : segLoop .unavailable (fun _ => none) hour pick (e0 :: rest) db =
            segLoop .unavailable (fun _ => none) hour pick rest db := by
          simp only [segLoop, hfu, hfs]
        rw [hred]
        rcases List.mem_cons.mp he with heq | hrest
        · subst heq
          have hs0mem := List.mem_of_find?_eq_some hfs
          have hs0id : s0.upload_id = e.upload_id := by
            have := List.find?_some hfs
            rw [eq_of_beq this, huid]
          rcases hinv s0 hs0mem with hb | hg
          · exact absurd hs0id (hbase s0 hb)
          · exact ⟨s0, segLoop_segments_mono _ _ _ _ rest db s0 hs0mem, hs0id, hg⟩
        · exact ih db hU hinv e hrest hFK hbase

/-- C4 (amended).  When the Narration Service is unavailable and TTS fails
everywhere: (1) in the daily workflow's `generate_playlist_segments`, every
entry whose upload had no segment gets a persisted Segment whose text is the
non-empty deterministic template of the time-of-day personality bucket and
whose audio reference is null — the text survives the audio failure; but
(2) in the background task `generate_dj_intro`, an audio-synthesis failure
raises, is retried, and ends as an error dict after four Narration Service
contacts with no Segment persisted and the state unchanged. -/
theorem segment_text_survives_audio_failure :
    (∀ (db : Db) (pid : Nat) (hour : Nat) (pick : Bool),
      pid ∈ db.playlists.map (fun p => p.id) →
      (∀ e ∈ entriesOf pid db, ∃ u ∈ db.uploads, u.id = e.upload_id) →
      (∀ e ∈ entriesOf pid db, ∀ s ∈ db.segments, s.upload_id ≠ e.upload_id) →
      (generate_playlist_segments db pid .unavailable (fun _ => none) hour pick).1 = true ∧
      (∀ e ∈ entriesOf pid db,
        ∃ s ∈ (generate_playlist_segments db pid .unavailable
            (fun _ => none) hour pick).2.segments,
          s.upload_id = e.upload_id ∧ s.dj_intro_audio = none ∧
          s.dj_intro_text ≠ "" ∧
          ∃ u ∈ db.uploads, u.id = s.upload_id ∧
            s.dj_intro_text =
              (generate_fallback_intro (mkMetadata u)
                (select_personality hour pick)).text)) ∧
    (∀ (db : Db) (uid : Nat) (brain : BrainResult) (hour : Nat) (pick : Bool),
      (∃ u ∈ db.uploads, u.id = uid) →
      (∀ s ∈ db.segments, s.upload_id ≠ uid) →
      generate_dj_intro db uid brain none hour pick =
        (TaskResult.errorResult "Failed to generate intro audio", db, 4)) := by
  constructor
  · intro db pid hour pick hmem hFK hnoseg
    have hfind : (db.playlists.find? (fun p => p.id == pid)).isSome := by
      rcases List.mem_map.mp hmem with ⟨p, hp, hpid⟩
      exact List.find?_isSome.mpr ⟨p, hp, by simp [hpid]⟩
    rcases hfp : db.playlists.find? (fun p => p.id == pid) with _ | p
    · rw [hfp] at hfind
      cases hfind
    · have hred : generate_playlist_segments db pid .unavailable
          (fun _ => none) hour pick =
          (true, segLoop .unavailable (fun _ => none) hour pick (entriesOf pid db) db) := by
        unfold generate_playlist_segments
        rw [hfp]
      rw [hred]
      refine ⟨rfl, ?_⟩
      intro e he
      obtain ⟨s, hsmem, hsid, hgood⟩ :=
        segLoop_fallback hour pick db.uploads db.segments (entriesOf pid db) db rfl
          (fun s hs => Or.inl hs) e he (hFK e he) (fun s hs h0 => hnoseg e he s hs h0)
      obtain ⟨haudio, hne, u, hu, huid, htext⟩ := hgood
      exact ⟨s, hsmem, hsid, haudio, hne, u, hu, huid, htext⟩
  · intro db uid brain hour pick hFK hnoseg
    obtain ⟨u, hu, huid⟩ := hFK
    have hfind : (db.uploads.find? (fun x => x.id == uid)).isSome :=
      List.find?_isSome.mpr ⟨u, hu, by simp [huid]⟩
    rcases hfu : db.uploads.find? (fun x => x.id == uid) with _ | u0
    · rw [hfu] at hfind
      cases hfind
    · have hfs : db.segments.find? (fun s => s.upload_id == uid) = none := by
        rw [List.find?_eq_none]
        intro s hs
        simp only [beq_iff_eq]
        exact hnoseg s hs
      have hatt : generate_dj_intro_attempt db uid brain none hour pick =
          (.raised "Failed to generate intro audio", db, 1) := by
        unfold generate_dj_intro_attempt
        rw [hfu]
        dsimp only
        rw [hfs]
      have step : ∀ n calls, generate_dj_intro_go uid brain none hour pick (n + 1) db calls =
          generate_dj_intro_go uid brain none hour pick n db (calls + 1) := by
        intro n calls
        conv_lhs => rw [generate_dj_intro_go.eq_def]
        dsimp only
        rw [hatt]
      have step0 : ∀ calls, generate_dj_intro_go uid brain none hour pick 0 db calls =
          (TaskResult.errorResult "Failed to generate intro audio", db, calls + 1) := by
        intro calls
        conv_lhs => rw [generate_dj_intro_go.eq_def]
        dsimp only
        rw [hatt]
      show generate_dj_intro_go uid brain none hour pick 3 db 0 = _
      rw [step, step, step, step0]

/-- C4 counterexample.  At a concrete state (one upload, no segments), the
background `generate_dj_intro` task with failing audio synthesis returns the
error dict and persists no Segment at all — the claim that "a Segment is
still created and persisted with that text and a null audio reference" is
false of this code path. -/
theorem dj_intro_audio_failure_cex :
    (generate_dj_intro exDbC 1 BrainResult.unavailable none 7 true).1 =
      TaskResult.errorResult "Failed to generate intro audio" ∧
    (generate_dj_intro exDbC 1 BrainResult.unavailable none 7 true).2.1.segments = [] ∧
    exDbC.segments = [] :=
  ⟨rfl, rfl, rfl⟩

/- ===== export format: C8 ===== -/

/-- With at most one Segment per upload id, "the first Segment of the item,
when playable" and "the first playable Segment of the item" coincide. -/
theorem find?_playable_nodup (fs : List String) (uid : Nat) :
    ∀ (segs : List Segment), (segs.map (fun s => s.upload_id)).Nodup →
      segs.find? (fun s => s.upload_id == uid && pathPlayable fs s.dj_intro_audio) =
      (match segs.find? (fun s => s.upload_id == uid) with
        | some s => if pathPlayable fs s.dj_intro_audio then some s else none
        | none => none) := by
  intro segs
  induction segs with
  | nil => intro _; rfl
  | cons s rest ih =>
    intro hn
    simp only [List.map_cons, List.nodup_cons] at hn
    cases hb : (s.upload_id == uid) with
    | true =>
      cases hp : pathPlayable fs s.dj_intro_audio with
      | true =>
        rw [List.find?_cons_of_pos _ (by simp [hb, hp]),
          List.find?_cons_of_pos _ (by simp [hb])]
        simp [hp]
      | false =>
        rw [List.find?_cons_of_neg _ (by simp [hb, hp]),
          List.find?_cons_of_pos _ (by simp [hb])]
        simp only [hp, Bool.false_eq_true, if_false]
        rw [List.find?_eq_none]
        intro r hr
        simp only [Bool.and_eq_true, beq_iff_eq]
        intro hcon
        have hmm : s.upload_id ∈ rest.map (fun x => x.upload_id) := by
          rw [eq_of_beq hb, ← hcon.1]
          exact List.mem_map_of_mem (fun x => x.upload_id) hr
        exact hn.1 hmm
    | false =>
      rw [List.find?_cons_of_neg _ (by simp [hb]),
        List.find?_cons_of_neg _ (by simp [hb])]
      exact ih hn.2

/-- The export loop body writes, per entry, exactly the amended spec
block. -/
theorem entryLines_eq_spec (db : Db) (fs : List String) (e : PlaylistEntry)
    (hn : (db.segments.map (fun s => s.upload_id)).Nodup) :
    entryLines db fs e = spec_entry_block db fs e := by
  unfold entryLines spec_entry_block spec_narration_block spec_content_block
  cases hfu : db.uploads.find? (fun x => x.id == e.upload_id) with
  | none => rfl
  | some u =>
    dsimp only
    rw [find?_playable_nodup fs u.id db.segments hn]
    have hcontent :
        (match u.filename with
          | some fn => if !(fn == "") && fs.contains fn
              then [contentInfoLine u, fn] else []
          | none => []) =
        (match u.filename with
          | some fn => if fn ≠ "" ∧ fn ∈ fs then [contentInfoLine u, fn] else []
          | none => []) := by
      cases u.filename with
      | none => rfl
      | some fn =>
        dsimp only
        by_cases hc : fn ≠ "" ∧ fn ∈ fs
        · rw [if_pos (by simp [hc.1, hc.2]), if_pos hc]
        · rw [if_neg (by simpa using hc), if_neg hc]
    rw [hcontent]
    cases hfs : db.segments.find? (fun s => s.upload_id == u.id) with
    | none => rfl
    | some s =>
      dsimp only
      cases hp : pathPlayable fs s.dj_intro_audio with
      | true => simp [hp]
      | false => simp [hp]

theorem flatMapCongr {α β : Type} (f g : α → List β) :
    ∀ (l : List α), (∀ a ∈ l, f a = g a) → l.flatMap f = l.flatMap g := by
  intro l
  induction l with
  | nil => intro _; rfl
  | cons a rest ih =>
    intro h
    simp only [List.flatMap_cons]
    rw [h a (List.mem_cons_self a rest), ih (fun b hb => h b (List.mem_cons_of_mem a hb))]

/-- C8 (amended).  For an existing playlist whose segments table has at most
one Segment per upload (the data model's invariant), the export file is the
header line followed, for each entry in ascending position order, by the
optional narration pair — present exactly when a Segment with playable
narration audio exists for the entry's item — and then the content info line
(`duration,Title - Creator` with `-1` for unknown duration) plus content file
path, the content pair appearing exactly when the entry's content file path
is set, non-empty and exists on disk. -/
theorem export_playlist_format (st : SysState) (pid : Nat)
    (hn : (st.db.segments.map (fun s => s.upload_id)).Nodup)
    (hmem : pid ∈ st.db.playlists.map (fun p => p.id)) :
    (export_playlist_to_m3u st pid).1 = some (m3uPath pid) ∧
    (export_playlist_to_m3u st pid).2.2 =
      "#EXTM3U" :: (sortByPosition (entriesOf pid st.db)).flatMap
        (spec_entry_block st.db st.fs) := by
  have hfind : (st.db.playlists.find? (fun p => p.id == pid)).isSome := by
    rcases List.mem_map.mp hmem with ⟨p, hp, hpid⟩
    exact List.find?_isSome.mpr ⟨p, hp, by simp [hpid]⟩
  rcases hfp : st.db.playlists.find? (fun p => p.id == pid) with _ | p
  · rw [hfp] at hfind
    cases hfind
  · have hred : export_playlist_to_m3u st pid =
        (some (m3uPath pid),
         { st with fs := m3uPath pid :: st.fs.filter (fun f => !(f == m3uPath pid)) },
         "#EXTM3U" :: (sortByPosition (entriesOf pid st.db)).flatMap
           (entryLines st.db st.fs)) := by
      unfold export_playlist_to_m3u
      rw [hfp]
    rw [hred]
    refine ⟨rfl, ?_⟩
    simp only [List.cons.injEq, true_and]
    exact flatMapCongr _ _ _ (fun e _ => entryLines_eq_spec st.db st.fs e hn)

theorem export_playlist_format_witness :
    (export_playlist_to_m3u exExpSt 7).1 = some (m3uPath 7) ∧
    (export_playlist_to_m3u exExpSt 7).2.2 =
      "#EXTM3U" :: (sortByPosition (entriesOf 7 exExpSt.db)).flatMap
        (spec_entry_block exExpSt.db exExpSt.fs) :=
  export_playlist_format exExpSt 7 (by decide) (by decide)

/-- C8 counterexample.  With an entry whose content file is absent from
disk, the export succeeds but writes no content info line for that entry, so
the claim's "then always a content info line … followed by the content file
path line" is false of the code: the produced lines differ from the
as-stated format. -/
theorem export_content_line_not_always_cex :
    (export_playlist_to_m3u exExpSt2 7).1 = some (m3uPath 7) ∧
    (export_playlist_to_m3u exExpSt2 7).2.2 = ["#EXTM3U"] ∧
    "#EXTM3U" :: (sortByPosition (entriesOf 7 exExpSt2.db)).flatMap
        (spec_entry_block_as_stated exExpSt2.db exExpSt2.fs) =
      ["#EXTM3U", "#EXTINF:10,Gone - carol", "/m/missing.mp3"] ∧
    (export_playlist_to_m3u exExpSt2 7).2.2 ≠
      "#EXTM3U" :: (sortByPosition (entriesOf 7 exExpSt2.db)).flatMap
        (spec_entry_block_as_stated exExpSt2.db exExpSt2.fs) := by
  refine ⟨rfl, rfl, rfl, ?_⟩
  intro h
  have hlen := congrArg List.length h
  rw [show (export_playlist_to_m3u exExpSt2 7).2.2 = ["#EXTM3U"] from rfl] at hlen
  rw [show "#EXTM3U" :: (sortByPosition (entriesOf 7 exExpSt2.db)).flatMap
      (spec_entry_block_as_stated exExpSt2.db exExpSt2.fs) =
      ["#EXTM3U", "#EXTINF:10,Gone - carol", "/m/missing.mp3"] from rfl] at hlen
  simp at hlen

/- ===== retention cleanup: C9 ===== -/

theorem cleanupLoop_playlists :
    ∀ (l : List Playlist) (st : SysState),
      (cleanupLoop l st).db.playlists =
        st.db.playlists.filter (fun q => !(l.any (fun p => q.id == p.id))) := by
  intro l
  induction l with
  | nil =>
    intro st
    simp [cleanupLoop]
  | cons p rest ih =>
    intro st
    conv_lhs => rw [cleanupLoop.eq_def]
    dsimp only
    rw [ih]
    dsimp only
    rw [List.filter_filter]
    apply List.filter_congr
    intro q _
    simp only [List.any_cons, Bool.not_or]
    rw [Bool.and_comm]

theorem cleanupLoop_entries :
    ∀ (l : List Playlist) (st : SysState),
      (cleanupLoop l st).db.entries =
        st.db.entries.filter (fun e => !(l.any (fun p => e.playlist_id == p.id))) := by
  intro l
  induction l with
  | nil =>
    intro st
    simp [cleanupLoop]
  | cons p rest ih =>
    intro st
    conv_lhs => rw [cleanupLoop.eq_def]
    dsimp only
    rw [ih]
    dsimp only
    rw [List.filter_filter]
    apply List.filter_congr
    intro e _
    simp only [List.any_cons, Bool.not_or]
    rw [Bool.and_comm]

theorem removeFile_eq_filter (fs : List String) (path : String) :
    (if fs.contains path then fs.filter (fun f => !(f == path)) else fs) =
    fs.filter (fun f => !(f == path)) := by
  split
  · rfl
  · next hc =>
    have hnm : path ∉ fs := by
      intro hmm
      exact hc (by simpa using hmm)
    symm
    rw [List.filter_eq_self]
    intro f hf
    simp only [Bool.not_eq_eq_eq_not, Bool.not_true, beq_eq_false_iff_ne, ne_eq]
    intro hfe
    exact hnm (hfe ▸ hf)

theorem cleanupLoop_fs :
    ∀ (l : List Playlist) (st : SysState),
      (cleanupLoop l st).fs =
        st.fs.filter (fun f => !(l.any (fun p => f == m3uPath p.id))) := by
  intro l
  induction l with
  | nil =>
    intro st
    simp [cleanupLoop]
  | cons p rest ih =>
    intro st
    conv_lhs => rw [cleanupLoop.eq_def]
    dsimp only
    rw [ih]
    dsimp only
    rw [removeFile_eq_filter, List.filter_filter]
    apply List.filter_congr
    intro f _
    simp only [List.any_cons, Bool.not_or]
    rw [Bool.and_comm]

/-- Under primary-key-distinct playlist ids, membership of one's id among the
victims' ids is just being a victim oneself. -/
theorem victims_any_iff (playlists : List Playlist) (now days_to_keep : Int)
    (hnodup : (playlists.map (fun p => p.id)).Nodup)
    (q : Playlist) (hq : q ∈ playlists) :
    (playlists.filter (retentionVictim now days_to_keep)).any
        (fun p => q.id == p.id) = retentionVictim now days_to_keep q := by
  cases hv : retentionVictim now days_to_keep q with
  | true =>
    rw [List.any_eq_true]
    exact ⟨q, List.mem_filter.mpr ⟨hq, hv⟩, by simp⟩
  | false =>
    rw [List.any_eq_false]
    intro p hp
    have hpmem := (List.mem_filter.mp hp).1
    have hpv := (List.mem_filter.mp hp).2
    simp only [beq_iff_eq]
    intro hid
    have : q = p := List.inj_on_of_nodup_map hnodup hq hpmem hid
    rw [this, hpv] at hv
    cases hv

/-- C9.  Retention cleanup never deletes an active playlist regardless of
age; it keeps exactly the playlists that are active or not older than the
cutoff (`now - days_to_keep` in seconds), i.e. deletes exactly the inactive
ones created strictly before the cutoff; and it deletes exactly the victims'
entry rows and exported m3u files — in particular each victim's file is gone
afterwards. -/
theorem cleanup_old_playlists_spec (st : SysState) (now days_to_keep : Int)
    (hnodup : (st.db.playlists.map (fun p => p.id)).Nodup) :
    (∀ p ∈ st.db.playlists, p.is_active = true →
      p ∈ (cleanup_old_playlists st now days_to_keep).db.playlists) ∧
    (cleanup_old_playlists st now days_to_keep).db.playlists =
      st.db.playlists.filter (fun p => !(retentionVictim now days_to_keep p)) ∧
    (cleanup_old_playlists st now days_to_keep).db.entries =
      st.db.entries.filter (fun e =>
        !((st.db.playlists.filter (retentionVictim now days_to_keep)).any
          (fun p => e.playlist_id == p.id))) ∧
    (cleanup_old_playlists st now days_to_keep).fs =
      st.fs.filter (fun f =>
        !((st.db.playlists.filter (retentionVictim now days_to_keep)).any
          (fun p => f == m3uPath p.id))) ∧
    (∀ p ∈ st.db.playlists, retentionVictim now days_to_keep p = true →
      m3uPath p.id ∉ (cleanup_old_playlists st now days_to_keep).fs) := by
  have hdef : cleanup_old_playlists st now days_to_keep =
      cleanupLoop (st.db.playlists.filter (retentionVictim now days_to_keep)) st := rfl
  have hpls : (cleanup_old_playlists st now days_to_keep).db.playlists =
      st.db.playlists.filter (fun p => !(retentionVictim now days_to_keep p)) := by
    rw [hdef, cleanupLoop_playlists]
    apply List.filter_congr
    intro q hq
    exact congrArg (fun b => !b)
      (victims_any_iff st.db.playlists now days_to_keep hnodup q hq)
  refine ⟨?_, hpls, ?_, ?_, ?_⟩
  · intro p hp hact
    rw [hpls]
    refine List.mem_filter.mpr ⟨hp, ?_⟩
    simp [retentionVictim, hact]
  · rw [hdef, cleanupLoop_entries]
  · rw [hdef, cleanupLoop_fs]
  · intro p hp hv hmem
    rw [hdef, cleanupLoop_fs] at hmem
    have hpred := (List.mem_filter.mp hmem).2
    have hany : ((st.db.playlists.filter (retentionVictim now days_to_keep)).any
        (fun q => m3uPath p.id == m3uPath q.id)) = true :=
      List.any_eq_true.mpr ⟨p, List.mem_filter.mpr ⟨hp, hv⟩, by simp⟩
    rw [hany] at hpred
    cases hpred

theorem cleanup_old_playlists_spec_witness :
    (∀ p ∈ exCleanSt.db.playlists, p.is_active = true →
      p ∈ (cleanup_old_playlists exCleanSt 0 7).db.playlists) ∧
    (cleanup_old_playlists exCleanSt 0 7).db.playlists =
      exCleanSt.db.playlists.filter (fun p => !(retentionVictim 0 7 p)) ∧
    (cleanup_old_playlists exCleanSt 0 7).db.entries =
      exCleanSt.db.entries.filter (fun e =>
        !((exCleanSt.db.playlists.filter (retentionVictim 0 7)).any
          (fun p => e.playlist_id == p.id))) ∧
    (cleanup_old_playlists exCleanSt 0 7).fs =
      exCleanSt.fs.filter (fun f =>
        !((exCleanSt.db.playlists.filter (retentionVictim 0 7)).any
          (fun p => f == m3uPath p.id))) ∧
    (∀ p ∈ exCleanSt.db.playlists, retentionVictim 0 7 p = true →
      m3uPath p.id ∉ (cleanup_old_playlists exCleanSt 0 7).fs) :=
  cleanup_old_playlists_spec exCleanSt 0 7 (by decide)
